import Mathlib

/-!
Shallow embedding of the receipt-extraction core of the OCR receipt
microservice (src/index.js) and proofs about it.

Modelling conventions:
- JS strings are `List Char` (receipt text is ASCII in practice; JS string
  length and character classes are modelled on that basis).
- JS numbers are `ℚ`.  The amount/price parsing (at most two fraction
  digits, compared against the integer bounds 0, 1000, 10000) and the store
  and date confidence formulas never put a value close enough to a
  comparison boundary for IEEE-754 rounding to flip any comparison the
  program performs on them, so exact rational arithmetic is faithful there.
  The amount scorer is the exception: its sums are compared against the 0.95
  cap, where double rounding is decisive (0.5+0.3+0.15 lies just above the
  0.95 literal), so that accumulation is modelled bit-exactly as IEEE-754
  double arithmetic (`dblAdd`), with the relevant constants given as the
  exact rational values of their nearest doubles.
- The process time zone is taken to be UTC, so the local calendar date and the
  UTC calendar date coincide; `new Date()` is modelled by an explicit `Today`
  parameter holding the current local calendar date.
- JS regexes are modelled by a small backtracking engine operating on
  `List Char`.  The engine returns the list of possible (remaining suffix,
  captures) pairs in JS backtracking priority order, deduplicated by remaining
  suffix (continuations depend only on the remaining suffix, so keeping the
  first entry per suffix preserves the first-match semantics).  All starred
  subexpressions in the program's patterns consume at least one character per
  iteration, so dropping empty star iterations is faithful.
-/

set_option maxRecDepth 4096

/-- JS whitespace class `\s`, restricted to the ASCII whitespace characters. -/
def jsSpaceC (c : Char) : Bool :=
  c == ' ' || c == '\t' || c == '\n' || c == '\r' || c == '\x0b' || c == '\x0c'

/-- Lowercase a JS string, character by character (ASCII-faithful model of
`String.prototype.toLowerCase`). -/
def toLowerL (l : List Char) : List Char := l.map Char.toLower

/-- Model of `String.prototype.trim`: drop whitespace at both ends. -/
def trimL (l : List Char) : List Char :=
  ((l.dropWhile jsSpaceC).reverse.dropWhile jsSpaceC).reverse

/-- Model of `String.prototype.includes`: substring test
(`containsSub needle hay`). -/
def containsSub : List Char → List Char → Bool
  | n, [] => n.isEmpty
  | n, h :: t => n.isPrefixOf (h :: t) || containsSub n t

/-- Digits of a decimal numeral to a natural number
(model of JS `Number` on an all-digit string). -/
def digitsVal (l : List Char) : Nat :=
  l.foldl (fun a c => a * 10 + (c.toNat - '0'.toNat)) 0

/-- JS `Math.min` on rationals. -/
def qmin (a b : ℚ) : ℚ := if a ≤ b then a else b

/-- JS `Math.max` on rationals. -/
def qmax (a b : ℚ) : ℚ := if a ≤ b then b else a

/-! ### Regular-expression engine -/

/-- Abstract syntax of the regular expressions appearing in the program.
`cls` is a single-character class, `grp` a numbered capture group, `eos` the
`$` anchor.  `star` is a greedy `*`, `lstar` a lazy `*?`. -/
inductive RE where
  | eps : RE
  | cls : (Char → Bool) → RE
  | cat : RE → RE → RE
  | alt : RE → RE → RE
  | star : RE → RE
  | lstar : RE → RE
  | grp : Nat → RE → RE
  | eos : RE

/-- Capture list: group index paired with the captured characters. -/
abbrev Caps := List (Nat × List Char)

/-- Keep the first entry for each remaining-suffix length (suffixes of a fixed
input with equal length are equal, and a match continuation depends only on
the remaining suffix, so this preserves JS first-match semantics). -/
def dedupM : List Nat → List (List Char × Caps) → List (List Char × Caps)
  | _, [] => []
  | seen, x :: xs =>
    if seen.contains x.1.length then dedupM seen xs
    else x :: dedupM (x.1.length :: seen) xs

def dedup (l : List (List Char × Caps)) : List (List Char × Caps) := dedupM [] l

/-- One unfolding level of the matcher.  `lower` is the matcher used for star
iterations (one budget level down); every star iteration consumes at least one
character, enforced by the length filter. -/
def matAux (lower : RE → List Char → Caps → List (List Char × Caps)) :
    RE → List Char → Caps → List (List Char × Caps)
  | .eps, s, c => [(s, c)]
  | .cls p, s, c =>
    match s with
    | [] => []
    | ch :: t => if p ch then [(t, c)] else []
  | .cat r1 r2, s, c =>
    dedup ((matAux lower r1 s c).flatMap fun x => matAux lower r2 x.1 x.2)
  | .alt r1 r2, s, c => dedup (matAux lower r1 s c ++ matAux lower r2 s c)
  | .star r, s, c =>
    dedup ((((matAux lower r s c).filter fun x => x.1.length < s.length).flatMap
      fun x => lower (.star r) x.1 x.2) ++ [(s, c)])
  | .lstar r, s, c =>
    dedup ((s, c) :: (((matAux lower r s c).filter fun x => x.1.length < s.length).flatMap
      fun x => lower (.lstar r) x.1 x.2))
  | .grp k r, s, c =>
    (matAux lower r s c).map fun x => (x.1, x.2 ++ [(k, s.take (s.length - x.1.length))])
  | .eos, s, c => if s.isEmpty then [(s, c)] else []

/-- Fueled matcher; fuel bounds the number of nested star iterations.  Since
each iteration consumes at least one character, fuel equal to the input length
is always sufficient (at fuel 0 the input reaching a star is empty, and a star
on empty input matches the empty string, as the base case returns). -/
def matA : Nat → RE → List Char → Caps → List (List Char × Caps)
  | 0 => matAux fun _ s c => [(s, c)]
  | n + 1 => matAux (matA n)

/-- All matches of `r` at the start of `s`, in JS backtracking priority
order (deduplicated by remaining suffix). -/
def matR (r : RE) (s : List Char) : List (List Char × Caps) :=
  matA s.length r s []

/-- Anchored match (JS regex starting with `^`): the first match at position
0, as (full matched text, captures). -/
def jsMatch (r : RE) (s : List Char) : Option (List Char × Caps) :=
  match matR r s with
  | x :: _ => some (s.take (s.length - x.1.length), x.2)
  | [] => none

/-- Unanchored search (JS `String.prototype.match` without `^`): leftmost
match wins; at the leftmost position the backtracking-first match wins. -/
def jsSearch (r : RE) (s : List Char) : Option (List Char × Caps) :=
  match jsMatch r s with
  | some m => some m
  | none =>
    match s with
    | [] => none
    | _ :: t => jsSearch r t

/-- A JS pattern: the regex plus whether it is anchored at the start. -/
structure JsPattern where
  re : RE
  anchored : Bool

/-- Run a pattern the way `line.match(pattern)` does. -/
def runPattern (p : JsPattern) (s : List Char) : Option (List Char × Caps) :=
  if p.anchored then jsMatch p.re s else jsSearch p.re s

/-- Capture group `k` of a match (`match[k]`), empty if absent. -/
def capN (k : Nat) (m : List Char × Caps) : List Char := (m.2.lookup k).getD []

/-- JS `match[1] || match[0]`. -/
def cap1or0 (m : List Char × Caps) : List Char :=
  match m.2.lookup 1 with
  | some c => if c.isEmpty then m.1 else c
  | none => m.1

/-! ### Pattern construction helpers -/

def cats : List RE → RE
  | [] => .eps
  | [r] => r
  | r :: rs => .cat r (cats rs)

def alts : List RE → RE
  | [] => .eps
  | [r] => r
  | r :: rs => .alt r (alts rs)

/-- Literal character. -/
def litC (ch : Char) : RE := .cls fun c => c == ch

/-- Case-insensitive literal character (the program's regexes use the `i`
flag). -/
def litIC (ch : Char) : RE := .cls fun c => c.toLower == ch.toLower

/-- Case-insensitive literal string. -/
def litsI (s : String) : RE := cats (s.data.map litIC)

def digitC : RE := .cls Char.isDigit
def spaceC : RE := .cls jsSpaceC
/-- `[A-Z]` under the `i` flag. -/
def alphaC : RE := .cls Char.isAlpha
/-- JS `.` (anything but a line terminator). -/
def dotC : RE := .cls fun c => !(c == '\n') && !(c == '\r')

/-- Greedy `?`. -/
def ropt (r : RE) : RE := .alt r .eps
/-- Greedy `+`. -/
def rplus (r : RE) : RE := .cat r (.star r)
/-- Lazy `+?`. -/
def rlazyPlus (r : RE) : RE := .cat r (.lstar r)
/-- Exactly `n` copies. -/
def repExact (n : Nat) (r : RE) : RE := cats (List.replicate n r)
/-- Greedy `{0,k}`. -/
def repOpt : Nat → RE → RE
  | 0, _ => .eps
  | k + 1, r => ropt (.cat r (repOpt k r))
/-- Greedy `{m,n}`. -/
def repRange (m n : Nat) (r : RE) : RE := .cat (repExact m r) (repOpt (n - m) r)


/-! ### Gregorian calendar arithmetic (days since 1970-01-01, as in the JS
`Date` millisecond clock divided by 86400000) -/

/-- Proleptic-Gregorian leap-year test. -/
def isLeap (y : Int) : Bool := y % 4 == 0 && (y % 100 != 0 || y % 400 == 0)

/-- Length of month `m` (1-12) in year `y` (used by the claim-side notion of
a real calendar date; the program's own date parsing never consults it, since
JS `Date` rolls over-long days into the next month). -/
def daysInMonth (y m : Int) : Int :=
  if m == 1 then 31
  else if m == 2 then (if isLeap y then 29 else 28)
  else if m == 3 then 31
  else if m == 4 then 30
  else if m == 5 then 31
  else if m == 6 then 30
  else if m == 7 then 31
  else if m == 8 then 31
  else if m == 9 then 30
  else if m == 10 then 31
  else if m == 11 then 30
  else if m == 12 then 31
  else 0

/-- Day number of the calendar date `y-m-d` (m in 1..12), with day 0 at
1970-01-01 (standard civil-from-days algorithm). -/
def daysFromCivil (y m d : Int) : Int :=
  let y2 : Int := if m ≤ 2 then y - 1 else y
  let era : Int := y2.fdiv 400
  let yoe : Int := y2 - era * 400
  let mp : Int := (m + 9) % 12
  let doy : Int := (153 * mp + 2).fdiv 5 + d - 1
  let doe : Int := yoe * 365 + yoe.fdiv 4 - yoe.fdiv 100 + doy
  era * 146097 + doe - 719468

/-- Inverse of `daysFromCivil`: calendar date of a day number. -/
def civilFromDays (z : Int) : Int × Int × Int :=
  let z2 : Int := z + 719468
  let era : Int := z2.fdiv 146097
  let doe : Int := z2 - era * 146097
  let yoe : Int := (doe - doe.fdiv 1460 + doe.fdiv 36524 - doe.fdiv 146096).fdiv 365
  let y : Int := yoe + era * 400
  let doy : Int := doe - (365 * yoe + yoe.fdiv 4 - yoe.fdiv 100)
  let mp : Int := (5 * doy + 2).fdiv 153
  let d : Int := doy - (153 * mp + 2).fdiv 5 + 1
  let m : Int := if mp < 10 then mp + 3 else mp - 9
  (if m ≤ 2 then y + 1 else y, m, d)

/-- ECMAScript `MakeDay`: `new Date(y, mIdx, d)` normalizes an arbitrary
0-based month index and day by linear arithmetic (month overflow rolls the
year, day overflow rolls the month). -/
def jsMakeDay (y mIdx d : Int) : Int :=
  daysFromCivil (y + mIdx.fdiv 12) (mIdx % 12 + 1) 1 + d - 1

/-- The `new Date(year, ...)` constructor maps years 0..99 to 1900..1999. -/
def yearRemap (y : Int) : Int := if 0 ≤ y ∧ y ≤ 99 then y + 1900 else y

def pad2 (n : Int) : String :=
  let s := toString n.toNat
  if s.length < 2 then "0" ++ s else s

def pad4 (n : Int) : String :=
  let s := toString n.toNat
  if s.length < 4 then String.mk (List.replicate (4 - s.length) '0') ++ s else s

/-- `date.toISOString().split('T')[0]` for a midnight date: the `YYYY-MM-DD`
string of a day number. -/
def isoDayStr (z : Int) : String :=
  let c := civilFromDays z
  pad4 c.1 ++ "-" ++ pad2 c.2.1 ++ "-" ++ pad2 c.2.2

/-- The current local calendar date (the components `getFullYear()`,
`getMonth()+1`, `getDate()` of `new Date()`); the process time zone is UTC. -/
structure Today where
  year : Int
  month : Int
  day : Int

/-- Day number of `new Date(now.getFullYear() - 2, now.getMonth(),
now.getDate())` (src/index.js line 398). -/
def twoYearsAgoDay (t : Today) : Int :=
  jsMakeDay (yearRemap (t.year - 2)) (t.month - 1) t.day

/-- Day number of the current date. -/
def todayDay (t : Today) : Int := jsMakeDay t.year (t.month - 1) t.day

/-- `new Date().toISOString().split('T')[0]`. -/
def todayIso (t : Today) : String := isoDayStr (todayDay t)

/-! ### Date string parsing (`parseAndFormatDate`, src/index.js 381-408) -/

/-- Anchored full-string format `^\d{4}-\d{1,2}-\d{1,2}$`. -/
def fmtYMD : RE :=
  cats [repExact 4 digitC, litC '-', repRange 1 2 digitC, litC '-', repRange 1 2 digitC, .eos]

/-- Anchored full-string format `^\d{1,2}\/\d{1,2}\/\d{4}$`. -/
def fmtMDYslash : RE :=
  cats [repRange 1 2 digitC, litC '/', repRange 1 2 digitC, litC '/', repExact 4 digitC, .eos]

/-- Anchored full-string format `^\d{1,2}-\d{1,2}-\d{4}$`. -/
def fmtMDYdash : RE :=
  cats [repRange 1 2 digitC, litC '-', repRange 1 2 digitC, litC '-', repExact 4 digitC, .eos]

/-- Strict `^\d{4}-\d{2}-\d{2}$` (used by `isValidDate`). -/
def fmtYMDstrict : RE :=
  cats [repExact 4 digitC, litC '-', repExact 2 digitC, litC '-', repExact 2 digitC, .eos]

def fullMatches (r : RE) (s : List Char) : Bool := (jsMatch r s).isSome

/-- `new Date` on a year-month-day string: V8 accepts months 1-12 and days
1-31, and per ECMAScript `MakeDay` a day past the month's end rolls over into
the following month (`new Date("2025-02-30")` is 2025-03-02); a month or day
outside those ranges makes the date invalid. -/
def isoLikeDay (y m d : Int) : Option Int :=
  if 1 ≤ m ∧ m ≤ 12 ∧ 1 ≤ d ∧ d ≤ 31 then some (daysFromCivil y m 1 + d - 1)
  else none

/-- Three-letter English month abbreviations, for the legacy textual
parser model. -/
def monthAbbrevs3 : List (List Char) :=
  ["jan".data, "feb".data, "mar".data, "apr".data, "may".data, "jun".data,
   "jul".data, "aug".data, "sep".data, "oct".data, "nov".data, "dec".data]

/-- Find the 1-based index of the month whose abbreviation equals the key. -/
def monthIdx : List (List Char) → Int → List Char → Option Int
  | [], _, _ => none
  | nm :: rest, k, key => if key == nm then some k else monthIdx rest (k + 1) key

/-- V8's legacy parser recognizes a word as a month when its first three
letters match a month abbreviation (`new Date("MAYBE 7 2025")` is May 7,
2025); returns the 1-based month. -/
def monthOfWord (w : List Char) : Option Int :=
  let lw := toLowerL w
  if lw.length < 3 then none else monthIdx monthAbbrevs3 1 (lw.take 3)

/-- Split a string into maximal runs of letters and of digits, dropping all
other characters; the fuel (first argument) only needs to be at least the
input length, since every step consumes at least one character. -/
def dateTokensF : Nat → List Char → List (List Char)
  | 0, _ => []
  | _ + 1, [] => []
  | fuel + 1, c :: t =>
    if c.isAlpha then
      (c :: t.takeWhile Char.isAlpha) :: dateTokensF fuel (t.dropWhile Char.isAlpha)
    else if c.isDigit then
      (c :: t.takeWhile Char.isDigit) :: dateTokensF fuel (t.dropWhile Char.isDigit)
    else dateTokensF fuel t

/-- Tokenization used by the legacy textual date parser model. -/
def dateTokens (s : List Char) : List (List Char) := dateTokensF s.length s

/-- `new Date(dateStr)` on the textual month-name forms matched by the
extractor's patterns 4 and 5 ("MON d, yyyy" and "d MON yyyy"): V8's legacy
parser, modelled on the token shapes those regexes can produce.  Days 1-31
are accepted and roll over past the month's end via `MakeDay`
(`new Date("FEB 30 2025")` is 2025-03-02). -/
def parseTextualDay (s : List Char) : Option Int :=
  match dateTokens s with
  | [a, b, c] =>
    if a.all Char.isAlpha then
      (monthOfWord a).bind fun m =>
        let d : Int := digitsVal b
        let y : Int := digitsVal c
        if 1 ≤ d ∧ d ≤ 31 then some (daysFromCivil y m 1 + d - 1) else none
    else if b.all Char.isAlpha then
      (monthOfWord b).bind fun m =>
        let d : Int := digitsVal a
        let y : Int := digitsVal c
        if 1 ≤ d ∧ d ≤ 31 then some (daysFromCivil y m 1 + d - 1) else none
    else none
  | _ => none

/-- The format-dispatch part of `parseAndFormatDate`: the day number denoted
by the matched date string, `none` for an invalid date. -/
def parseCandidateDay (s : List Char) : Option Int :=
  if fullMatches fmtYMD s then
    match s.splitOn '-' with
    | [ys, ms, ds] => isoLikeDay (digitsVal ys) (digitsVal ms) (digitsVal ds)
    | _ => none
  else if fullMatches fmtMDYslash s then
    match s.splitOn '/' with
    | [ms, ds, ys] =>
      some (jsMakeDay (yearRemap (digitsVal ys)) ((digitsVal ms : Int) - 1) (digitsVal ds))
    | _ => none
  else if fullMatches fmtMDYdash s then
    match s.splitOn '-' with
    | [ms, ds, ys] =>
      some (jsMakeDay (yearRemap (digitsVal ys)) ((digitsVal ms : Int) - 1) (digitsVal ds))
    | _ => none
  else parseTextualDay s

/-- `parseAndFormatDate` (src/index.js 381-408): parse the matched string,
then accept it only within the plausibility window
`[today - 2 years, today]`, returning the ISO day string. -/
def parseAndFormatDate (t : Today) (s : List Char) : Option String :=
  (parseCandidateDay s).bind fun z =>
    if twoYearsAgoDay t ≤ z ∧ z ≤ todayDay t then some (isoDayStr z) else none

/-! ### Store name extraction (src/index.js 224-252) -/

/-- Pattern `/^(CVS|WALGREENS|WALMART|TARGET|COSTCO|RITE\s*AID|PHARMACY)/i`. -/
def storeP1 : JsPattern :=
  { re := .grp 1 (alts
      [litsI "CVS", litsI "WALGREENS", litsI "WALMART", litsI "TARGET", litsI "COSTCO",
       cats [litsI "RITE", .star spaceC, litsI "AID"], litsI "PHARMACY"])
    anchored := true }

/-- Character class `[A-Z\s]` under the `i` flag. -/
def alphaSpaceC : RE := .cls fun c => c.isAlpha || jsSpaceC c

/-- Pattern `/^([A-Z][A-Z\s]{3,25})\s*(PHARMACY|STORE|MARKET|CLINIC)/i`. -/
def storeP2 : JsPattern :=
  { re := cats
      [.grp 1 (cats [alphaC, repRange 3 25 alphaSpaceC]), .star spaceC,
       .grp 2 (alts [litsI "PHARMACY", litsI "STORE", litsI "MARKET", litsI "CLINIC"])]
    anchored := true }

/-- Pattern `/^(DR\.?\s+[A-Z][A-Z\s]{3,25})/i`. -/
def storeP3 : JsPattern :=
  { re := .grp 1 (cats
      [litsI "DR", ropt (litC '.'), rplus spaceC, alphaC, repRange 3 25 alphaSpaceC])
    anchored := true }

/-- Pattern `/^([A-Z&][A-Z\s&]{4,30})\s*$/i`. -/
def storeP4 : JsPattern :=
  { re := cats
      [.grp 1 (cats [.cls fun c => c.isAlpha || c == '&',
                     repRange 4 30 (.cls fun c => c.isAlpha || jsSpaceC c || c == '&')]),
       .star spaceC, .eos]
    anchored := true }

def storePatterns : List JsPattern := [storeP1, storeP2, storeP3, storeP4]

/-- `cleanStoreName` (src/index.js 363-372): strip all but letters, digits,
whitespace, `&`, `-`, `.`; collapse whitespace; trim; lowercase; title-case
each space-separated word. -/
def keepStoreChar (c : Char) : Bool :=
  c.isAlphanum || jsSpaceC c || c == '&' || c == '-' || c == '.'

/-- Replace every whitespace run by a single space (`.replace(/\s+/g, ' ')`). -/
def collapseWs (l : List Char) : List Char :=
  l.foldr
    (fun c acc =>
      if jsSpaceC c then
        match acc with
        | ' ' :: _ => acc
        | _ => ' ' :: acc
      else c :: acc)
    []

/-- `word.charAt(0).toUpperCase() + word.slice(1)`. -/
def capWord : List Char → List Char
  | [] => []
  | c :: t => c.toUpper :: t

def cleanStoreName (name : List Char) : String :=
  String.mk (List.intercalate [' ']
    (((toLowerL (trimL (collapseWs (name.filter keepStoreChar)))).splitOn ' ').map capWord))

/-- The inner pattern loop of `extractStoreName` on one (trimmed) line:
first pattern that matches wins, value `match[1] || match[0]`. -/
def lineStoreCap (line : List Char) : Option (List Char) :=
  storePatterns.findSome? fun p => (runPattern p line).map cap1or0

/-- The scanning loop of `extractStoreName` over the first lines; the second
argument is the current line index. -/
def extractStoreNameGo : List (List Char) → Nat → Option (String × ℚ)
  | [], _ => none
  | l :: ls, i =>
    match lineStoreCap (trimL l) with
    | some cap => some (cleanStoreName cap, 0.7 + 0.3 * ((5 : ℚ) - (i : ℚ)) / 5)
    | none => extractStoreNameGo ls (i + 1)

/-- Fallback filter: `line.length > 3 && line.length < 50 && /[A-Za-z]/.test(line)`. -/
def goodFallbackLine (l : List Char) : Bool :=
  decide (l.length > 3) && decide (l.length < 50) && l.any Char.isAlpha

/-- `extractStoreName` (src/index.js 224-252). -/
def extractStoreName (lines : List (List Char)) : String × ℚ :=
  match extractStoreNameGo (lines.take 5) 0 with
  | some r => r
  | none =>
    match lines.find? goodFallbackLine with
    | some l => (cleanStoreName l, 0.3)
    | none => ("", 0)

/-! ### Amount extraction (src/index.js 254-292) -/

/-- Capture `(\d+\.?\d{0,2})`. -/
def numCapLoose : RE := .grp 1 (cats [rplus digitC, ropt (litC '.'), repOpt 2 digitC])

/-- Capture `(\d+\.\d{2})`. -/
def numCapStrict : RE := .grp 1 (cats [rplus digitC, litC '.', digitC, digitC])

def kwAlts : RE := alts [litsI "TOTAL", litsI "AMOUNT", litsI "BALANCE"]

/-- Pattern `/(?:TOTAL|AMOUNT|BALANCE)[:\s]*\$?(\d+\.?\d{0,2})/i`. -/
def amountP1 : JsPattern :=
  { re := cats [kwAlts, .star (.cls fun c => c == ':' || jsSpaceC c), ropt (litC '$'), numCapLoose]
    anchored := false }

/-- Pattern `/^\s*\$?(\d+\.\d{2})\s*$/`. -/
def amountP2 : JsPattern :=
  { re := cats [.star spaceC, ropt (litC '$'), numCapStrict, .star spaceC, .eos]
    anchored := true }

/-- Pattern `/\$(\d+\.\d{2})\s*(?:TOTAL|AMOUNT|BALANCE)?/i`. -/
def amountP3 : JsPattern :=
  { re := cats [litC '$', numCapStrict, .star spaceC, ropt kwAlts]
    anchored := false }

/-- Pattern `/(\d+\.\d{2})\s*(?:TOTAL|AMOUNT|BALANCE)/i`. -/
def amountP4 : JsPattern :=
  { re := cats [numCapStrict, .star spaceC, kwAlts]
    anchored := false }

def amountPatterns : List JsPattern := [amountP1, amountP2, amountP3, amountP4]

/-- `parseFloat` of a captured numeral of shape `\d+(\.\d{0,2})?`, in cents
(exact, since such numerals have at most two fraction digits). -/
def centsOf (cap : List Char) : Nat :=
  match cap.splitOn '.' with
  | [w] => digitsVal w * 100
  | [w, f] =>
    digitsVal w * 100 +
      (if f.length == 0 then 0 else if f.length == 1 then digitsVal f * 10 else digitsVal f)
  | _ => 0

/-- `x.toFixed(2)` for a cent count (exact for the values the program
produces). -/
def fmt2cents (c : Nat) : String :=
  toString (c / 100) ++ "." ++ (if c % 100 < 10 then "0" ++ toString (c % 100) else toString (c % 100))

/-- IEEE-754 double addition, for exactly-represented doubles whose sum lies
in [0.5, 2): the exact sum x + y = num/den is rounded to the nearest multiple
of 2^-53 (9007199254740992 = 2^53; sums below 1) or of 2^-52
(4503599627370496 = 2^52; sums in [1,2)), ties to even.  This interval
covers every partial sum of the amount score accumulation, whose comparisons
against the 0.95 cap are sensitive to double rounding, so the score
arithmetic is modelled bit-exactly. -/
def dblAdd (x y : ℚ) : ℚ :=
  let num : Int := x.num * (y.den : Int) + y.num * (x.den : Int)
  let den : Int := (x.den : Int) * (y.den : Int)
  let p : Nat := if num < den then 9007199254740992 else 4503599627370496
  let a : Int := num * (p : Int)
  let n : Int := a.fdiv den
  let rem : Int := a - n * den
  let n2 : Int :=
    if 2 * rem < den then n
    else if den < 2 * rem then n + 1
    else if n % 2 == 0 then n else n + 1
  mkRat n2 p

/-- The IEEE-754 double nearest 0.3, exactly. -/
def d03 : ℚ := mkRat 5404319552844595 18014398509481984
/-- The IEEE-754 double nearest 0.2, exactly. -/
def d02 : ℚ := mkRat 3602879701896397 18014398509481984
/-- The IEEE-754 double nearest 0.15, exactly. -/
def d015 : ℚ := mkRat 5404319552844595 36028797018963968
/-- The IEEE-754 double nearest 0.1, exactly. -/
def d01 : ℚ := mkRat 3602879701896397 36028797018963968
/-- The IEEE-754 double nearest 0.95 (the cap literal of src/index.js 283),
exactly. -/
def d095 : ℚ := mkRat 4278419646001971 4503599627370496

/-- The score of one pattern match (`confidence` in src/index.js 270-278):
0.5, +0.3 for "total", +0.2 for "amount", +0.15 for "balance" in the line
(case-insensitive), +0.2 when the line index is past 60% of the line count,
+0.1 when the captured numeral contains a decimal point — accumulated in the
source's order with IEEE-754 double addition (e.g. 0.5+0.3+0.15 is the double
above 0.95, not 0.95).  The position test `index > lines.length * 0.6` is
written as the equivalent integer comparison 5i > 3n: for any line count
below 2^50 the double product n*0.6 is close enough to 3n/5 that its
comparison with an integer index agrees with the exact one.  This is the raw
score, before the 0.95 cap applied at storage time. -/
def amountScore (i : Nat) (numLines : Nat) (line : List Char) (cap : List Char) : ℚ :=
  let low := toLowerL line
  let s1 : ℚ := mkRat 1 2
  let s2 := if containsSub "total".data low then dblAdd s1 d03 else s1
  let s3 := if containsSub "amount".data low then dblAdd s2 d02 else s2
  let s4 := if containsSub "balance".data low then dblAdd s3 d015 else s3
  let s5 := if 5 * i > 3 * numLines then dblAdd s4 d02 else s4
  if cap.contains '.' then dblAdd s5 d01 else s5

/-- One amount candidate: the parsed value in cents, and its raw score. -/
structure AmountCand where
  cents : Nat
  score : ℚ
deriving DecidableEq

/-- All candidates, in the order the nested `forEach` loops of
`extractAmount` visit them (line-major, pattern-minor), keeping only values
in `(0, 10000)`. -/
def amountCands (lines : List (List Char)) : List AmountCand :=
  lines.enum.flatMap fun x =>
    amountPatterns.filterMap fun p =>
      (runPattern p x.2).bind fun m =>
        let cap := capN 1 m
        let c := centsOf cap
        if 0 < c ∧ c < 1000000 then some ⟨c, amountScore x.1 lines.length x.2 cap⟩ else none

/-- The accumulation step of `extractAmount`: a candidate replaces the best
when its raw score strictly exceeds the stored best confidence (which was
capped at the double 0.95 literal when stored). -/
def amountStep (best : String × ℚ) (c : AmountCand) : String × ℚ :=
  if c.score > best.2 then (fmt2cents c.cents, qmin c.score d095) else best

/-- `extractAmount` (src/index.js 254-292). -/
def extractAmount (lines : List (List Char)) : String × ℚ :=
  (amountCands lines).foldl amountStep ("", 0)

/-! ### Date extraction (src/index.js 294-326) -/

def monthAbbrevAlts : RE :=
  alts [litsI "JAN", litsI "FEB", litsI "MAR", litsI "APR", litsI "MAY", litsI "JUN",
        litsI "JUL", litsI "AUG", litsI "SEP", litsI "OCT", litsI "NOV", litsI "DEC"]

/-- Pattern `/(\d{1,2}\/\d{1,2}\/\d{4})/`. -/
def dateP1 : JsPattern :=
  { re := .grp 1 (cats [repRange 1 2 digitC, litC '/', repRange 1 2 digitC, litC '/',
                        repExact 4 digitC])
    anchored := false }

/-- Pattern `/(\d{1,2}-\d{1,2}-\d{4})/`. -/
def dateP2 : JsPattern :=
  { re := .grp 1 (cats [repRange 1 2 digitC, litC '-', repRange 1 2 digitC, litC '-',
                        repExact 4 digitC])
    anchored := false }

/-- Pattern `/(\d{4}-\d{1,2}-\d{1,2})/`. -/
def dateP3 : JsPattern :=
  { re := .grp 1 (cats [repExact 4 digitC, litC '-', repRange 1 2 digitC, litC '-',
                        repRange 1 2 digitC])
    anchored := false }

/-- Pattern `/((?:JAN|...|DEC)[A-Z]*\.?\s+\d{1,2},?\s+\d{4})/i`. -/
def dateP4 : JsPattern :=
  { re := .grp 1 (cats [monthAbbrevAlts, .star alphaC, ropt (litC '.'), rplus spaceC,
                        repRange 1 2 digitC, ropt (litC ','), rplus spaceC, repExact 4 digitC])
    anchored := false }

/-- Pattern `/(\d{1,2}\s+(?:JAN|...|DEC)[A-Z]*\.?\s+\d{4})/i`. -/
def dateP5 : JsPattern :=
  { re := .grp 1 (cats [repRange 1 2 digitC, rplus spaceC, monthAbbrevAlts, .star alphaC,
                        ropt (litC '.'), rplus spaceC, repExact 4 digitC])
    anchored := false }

def datePatterns : List JsPattern := [dateP1, dateP2, dateP3, dateP4, dateP5]

/-- The inner pattern loop of `extractDate` on one line (src/index.js
306-319): a pattern that matches but whose parse is rejected falls through to
the next pattern of the same line. -/
def datePatLoop (t : Today) (line : List Char) : List JsPattern → Option String
  | [] => none
  | p :: ps =>
    match runPattern p line with
    | some m =>
      match parseAndFormatDate t (capN 1 m) with
      | some v => some v
      | none => datePatLoop t line ps
    | none => datePatLoop t line ps

/-- The date produced by one line, if any. -/
def lineDate (t : Today) (line : List Char) : Option String :=
  datePatLoop t line datePatterns

/-- The scanning loop of `extractDate` over the first lines; the second
argument is the current line index. -/
def extractDateGo (t : Today) : List (List Char) → Nat → Option (String × ℚ)
  | [], _ => none
  | l :: ls, i =>
    match lineDate t l with
    | some v => some (v, 0.8 - (i : ℚ) * 0.03)
    | none => extractDateGo t ls (i + 1)

/-- `extractDate` (src/index.js 294-326). -/
def extractDate (t : Today) (lines : List (List Char)) : String × ℚ :=
  match extractDateGo t (lines.take 10) 0 with
  | some r => r
  | none => (todayIso t, 0.1)

/-! ### Line item extraction (src/index.js 328-361) -/

/-- Pattern `/^(.+?)\s+\$?(\d+\.?\d{0,2})$/`. -/
def itemP1 : JsPattern :=
  { re := cats [.grp 1 (rlazyPlus dotC), rplus spaceC, ropt (litC '$'),
                .grp 2 (cats [rplus digitC, ropt (litC '.'), repOpt 2 digitC]), .eos]
    anchored := true }

/-- Pattern `/^(.+?)\s+(\d+\.\d{2})$/`. -/
def itemP2 : JsPattern :=
  { re := cats [.grp 1 (rlazyPlus dotC), rplus spaceC,
                .grp 2 (cats [rplus digitC, litC '.', digitC, digitC]), .eos]
    anchored := true }

/-- Pattern `/^(.+)\s+\$(\d+\.\d{2})$/`. -/
def itemP3 : JsPattern :=
  { re := cats [.grp 1 (rplus dotC), rplus spaceC, litC '$',
                .grp 2 (cats [rplus digitC, litC '.', digitC, digitC]), .eos]
    anchored := true }

def itemPatterns : List JsPattern := [itemP1, itemP2, itemP3]

/-- Exclusion regex `/^(total|subtotal|tax|amount|balance|change|cash|card|
visa|mastercard|debit|credit|thank|receipt|store|pharmacy|date|time)/i`. -/
def excludeRe : RE :=
  alts [litsI "total", litsI "subtotal", litsI "tax", litsI "amount", litsI "balance",
        litsI "change", litsI "cash", litsI "card", litsI "visa", litsI "mastercard",
        litsI "debit", litsI "credit", litsI "thank", litsI "receipt", litsI "store",
        litsI "pharmacy", litsI "date", litsI "time"]

def excludeTest (line : List Char) : Bool := (jsMatch excludeRe line).isSome

/-- `cleanItemDescription` (src/index.js 374-379). -/
def cleanItemDescription (l : List Char) : List Char :=
  trimL (collapseWs (l.filter fun c => c.isAlphanum || jsSpaceC c || c == '-'))

structure LineItem where
  description : String
  price : String
deriving DecidableEq

/-- The per-line body of `extractLineItems`: skip excluded or out-of-length
lines; otherwise the first pattern that matches AND passes the description /
price checks wins (a matching pattern failing the checks falls through to the
next pattern). -/
def itemOfLine (line : List Char) : Option LineItem :=
  if excludeTest line || decide (line.length < 3) || decide (line.length > 60) then none
  else
    itemPatterns.findSome? fun p =>
      (runPattern p line).bind fun m =>
        let desc := trimL (capN 1 m)
        let c := centsOf (capN 2 m)
        if decide (desc.length > 2) && decide (0 < c) && decide (c < 100000) then
          some ⟨String.mk (cleanItemDescription desc), fmt2cents c⟩
        else none

/-- `extractLineItems` (src/index.js 328-361). -/
def extractLineItems (lines : List (List Char)) : List LineItem :=
  (lines.filterMap itemOfLine).take 15

/-! ### Assembly (`parseReceiptText`, src/index.js 178-222) -/

structure ConfScores where
  store_name : ℚ
  amount : ℚ
  date : ℚ
  overall : ℚ
deriving DecidableEq

structure ExtractedData where
  store_name : String
  amount : String
  date : String
  line_items : List LineItem
  confidence_scores : ConfScores
deriving DecidableEq

/-- The line normalizer: split on newline, trim, drop empty lines. -/
def toLines (text : List Char) : List (List Char) :=
  ((text.splitOn '\n').map trimL).filter fun l => !l.isEmpty

/-- `parseReceiptText(text, overallConfidence)` (src/index.js 178-222);
`t` is the current date read through `new Date()` by the date extractor. -/
def parseReceiptText (t : Today) (text : String) (overallConfidence : ℚ) : ExtractedData :=
  let lines := toLines text.data
  let sn := extractStoreName lines
  let am := extractAmount lines
  let dt := extractDate t lines
  { store_name := if sn.1 = "" then "" else sn.1
    amount := if am.1 = "" then "" else am.1
    date := if dt.1 = "" then "" else dt.1
    line_items := extractLineItems lines
    confidence_scores :=
      { store_name := if sn.1 = "" then 0 else sn.2
        amount := if am.1 = "" then 0 else am.2
        date := if dt.1 = "" then 0 else dt.2
        overall := qmax 0 (qmin 1 (overallConfidence / 100)) } }

/-! ### Validation (src/index.js 418-443) -/

/-- Result of JS `parseFloat`: NaN, a signed Infinity (`true` = negative),
or a finite value. -/
inductive JsNum where
  | nan : JsNum
  | inf : Bool → JsNum
  | val : ℚ → JsNum
deriving DecidableEq

/-- JS `parseFloat`: after optional whitespace and sign, the word Infinity
parses to an infinity; otherwise the longest numeric prefix with optional
fraction and exponent is taken (empty gives NaN).  Finite values are taken
exactly; this is exact for the strings an assembled record can carry. -/
def jsParseFloat (s : List Char) : JsNum :=
  let s1 := s.dropWhile jsSpaceC
  let neg := s1.headD ' ' == '-'
  let s2 := if s1.headD ' ' == '-' || s1.headD ' ' == '+' then s1.tail else s1
  if "Infinity".data.isPrefixOf s2 then .inf neg
  else
    let ip := s2.takeWhile Char.isDigit
    let rest := s2.dropWhile Char.isDigit
    let fp := if rest.headD ' ' == '.' then rest.tail.takeWhile Char.isDigit else []
    if ip.isEmpty && fp.isEmpty then .nan
    else
      let rest2 := if rest.headD ' ' == '.' then rest.tail.dropWhile Char.isDigit else rest
      let scale : Nat := 10 ^ fp.length
      let mantNum : Int := (digitsVal ip * scale + digitsVal fp : Nat)
      let sgn : Int := if neg then -1 else 1
      let e1 := if rest2.headD ' ' == 'e' || rest2.headD ' ' == 'E' then rest2.tail else []
      let e2 := if e1.headD ' ' == '-' || e1.headD ' ' == '+' then e1.tail else e1
      let ed := e2.takeWhile Char.isDigit
      if ed.isEmpty then .val (mkRat (sgn * mantNum) scale)
      else if e1.headD ' ' == '-' then .val (mkRat (sgn * mantNum) (scale * 10 ^ digitsVal ed))
      else .val (mkRat (sgn * mantNum * ((10 ^ digitsVal ed : Nat) : Int)) scale)

/-- `isValidDate` (src/index.js 440-443): `new Date(s)` is a valid date and
`s` matches strict `^\d{4}-\d{2}-\d{2}$`.  Note `new Date` accepts any day
01-31 (rolling it past the month's end), so strings like "2025-02-30" are
valid here. -/
def isValidDate (s : String) : Bool :=
  fullMatches fmtYMDstrict s.data &&
    (match s.data.splitOn '-' with
     | [ys, ms, ds] => (isoLikeDay (digitsVal ys) (digitsVal ms) (digitsVal ds)).isSome
     | _ => false)

def errStore : String := "Store name is required and must be at least 2 characters"
def errAmount : String := "Amount must be a valid positive number"
def errDate : String := "Date must be in valid format (YYYY-MM-DD)"
def errConf : String := "OCR confidence too low for reliable extraction"

/-- Condition of the store-name check (src/index.js 421). -/
def storeNameBad (d : ExtractedData) : Bool :=
  d.store_name == "" || decide ((trimL d.store_name.data).length < 2)

/-- Condition of the amount check (src/index.js 425): `isNaN(parseFloat(x))
|| parseFloat(x) <= 0` (only a negative infinity is `<= 0`). -/
def amountBad (d : ExtractedData) : Bool :=
  d.amount == "" ||
    (match jsParseFloat d.amount.data with
     | .nan => true
     | .inf neg => neg
     | .val q => decide (q ≤ 0))

/-- Condition of the date check (src/index.js 429). -/
def dateBad (d : ExtractedData) : Bool := d.date == "" || !isValidDate d.date

/-- Condition of the confidence check (src/index.js 433); assembled records
always carry a `confidence_scores` object, so the `!data.confidence_scores`
disjunct of the source is always false here. -/
def confBad (d : ExtractedData) : Bool := decide (d.confidence_scores.overall < 0.2)

/-- `validateExtractedData` (src/index.js 418-438): four independent checks,
each pushing its error message. -/
def validateExtractedData (d : ExtractedData) : List String :=
  (if storeNameBad d then [errStore] else []) ++
  (if amountBad d then [errAmount] else []) ++
  (if dateBad d then [errDate] else []) ++
  (if confBad d then [errConf] else [])

/-! ### Category classification (src/index.js 445-476) -/

/-- The lowercased, space-joined item descriptions (`itemText`). -/
def itemTextOf (items : List LineItem) : List Char :=
  List.intercalate [' '] (items.map fun it => toLowerL it.description.data)

/-- First rule: Pharmacy. -/
def pharmacyCond (store : String) : Bool :=
  let s := toLowerL store.data
  containsSub "pharmacy".data s || containsSub "cvs".data s ||
    containsSub "walgreens".data s || containsSub "rite aid".data s

/-- Second rule: Dental — note `dental`/`orthodont` are checked against the
store name while `dental`/`tooth` are checked against the item text. -/
def dentalCond (store : String) (items : List LineItem) : Bool :=
  let s := toLowerL store.data
  let it := itemTextOf items
  containsSub "dental".data s || containsSub "orthodont".data s ||
    containsSub "dental".data it || containsSub "tooth".data it

def visionCond (store : String) (items : List LineItem) : Bool :=
  let s := toLowerL store.data
  let it := itemTextOf items
  containsSub "vision".data s || containsSub "eye".data s ||
    containsSub "optical".data s || containsSub "glasses".data it ||
    containsSub "contact".data it

def doctorCond (store : String) : Bool :=
  let s := toLowerL store.data
  containsSub "dr.".data s || containsSub "doctor".data s ||
    containsSub "clinic".data s || containsSub "medical".data s

def deviceCond (items : List LineItem) : Bool :=
  let it := itemTextOf items
  containsSub "thermometer".data it || containsSub "bandage".data it ||
    containsSub "medical device".data it || containsSub "monitor".data it

/-- `determineMedicalCategory` (src/index.js 445-476). -/
def determineMedicalCategory (store : String) (items : List LineItem) : String :=
  if pharmacyCond store then "Pharmacy"
  else if dentalCond store items then "Dental"
  else if visionCond store items then "Vision"
  else if doctorCond store then "Doctor Visit"
  else if deviceCond items then "Medical Device"
  else "Other"

/-! ### Review flags (src/index.js 653-657, 683-698) -/

/-- `getFieldsToVerify` (src/index.js 683-698): fixed threshold 0.7. -/
def getFieldsToVerify (cs : ConfScores) : List String :=
  (if cs.store_name < (0.7 : ℚ) then ["store_name"] else []) ++
  (if cs.amount < (0.7 : ℚ) then ["amount"] else []) ++
  (if cs.date < (0.7 : ℚ) then ["date"] else [])

/-- `review_required` as computed in the extract route (src/index.js 654):
`extractedData.confidence_scores.overall < 0.75`. -/
def reviewRequired (cs : ConfScores) : Bool := decide (cs.overall < 0.75)

/-! ### Claim-side (spec-modelled) definitions and theorems -/

/-- Modelled from the claim wording (C1): the subset of
`{store_name, amount, date}` whose confidence is below threshold `th`, in
that fixed order. -/
def fieldsBelow (th : ℚ) (cs : ConfScores) : List String :=
  (if cs.store_name < th then ["store_name"] else []) ++
  (if cs.amount < th then ["amount"] else []) ++
  (if cs.date < th then ["date"] else [])

/-- C1 (counterexample): there is NO single threshold governing both
`review_required` and `fields_to_verify` — the route uses 0.75 for the
former while `getFieldsToVerify` uses 0.7.  A record with all confidences
equal to 0.72 requires review yet has an empty `fields_to_verify`. -/
theorem reviewFlag_no_single_threshold :
    ¬ ∃ th : ℚ, ∀ cs : ConfScores,
      ((reviewRequired cs = true) ↔ cs.overall < th) ∧
      getFieldsToVerify cs = fieldsBelow th cs := by
  rintro ⟨th, h⟩
  obtain ⟨h1, h2⟩ := h ⟨0.72, 0.72, 0.72, 0.72⟩
  have ht : (0.72 : ℚ) < th := h1.mp (by with_unfolding_all decide)
  have h3 : getFieldsToVerify ⟨0.72, 0.72, 0.72, 0.72⟩ = [] := by with_unfolding_all decide
  rw [h3] at h2
  unfold fieldsBelow at h2
  rw [if_pos ht] at h2
  simp at h2

/-- C1 (amended): the review-flag calculator uses two thresholds:
`review_required` is `overall < 0.75`, while `fields_to_verify` is the subset
of `{store_name, amount, date}` below 0.7, in that fixed order. -/
theorem reviewFlag_two_thresholds (cs : ConfScores) :
    ((reviewRequired cs = true) ↔ cs.overall < 0.75) ∧
    getFieldsToVerify cs = fieldsBelow 0.7 cs :=
  ⟨by simp [reviewRequired], rfl⟩

/-- Modelled from the claim wording (C2): each of the three dental keywords
checked against both the store name and the item descriptions. -/
def dentalCondClaim (store : String) (items : List LineItem) : Bool :=
  let s := toLowerL store.data
  let it := itemTextOf items
  containsSub "dental".data s || containsSub "orthodont".data s ||
    containsSub "tooth".data s || containsSub "dental".data it ||
    containsSub "orthodont".data it || containsSub "tooth".data it

/-- C2 (counterexample): the store name "tooth hut" fails the Pharmacy rule
and contains the keyword "tooth", so the claim predicts Dental, but the
classifier returns "Other" — "tooth" is only checked against the item
descriptions, not the store name. -/
theorem dental_keywords_counterexample :
    pharmacyCond "tooth hut" = false ∧
    dentalCondClaim "tooth hut" [] = true ∧
    determineMedicalCategory "tooth hut" [] = "Other" :=
  ⟨by decide, by decide, by decide⟩

/-- C2 (amended): for records failing the Pharmacy rule, the classifier
returns Dental exactly when the store name contains "dental" or "orthodont",
or some item description contains "dental" or "tooth" (case-insensitive
substring): the keyword/source pairs are asymmetric. -/
theorem determineMedicalCategory_dental (store : String) (items : List LineItem)
    (h : pharmacyCond store = false) :
    determineMedicalCategory store items = "Dental" ↔ dentalCond store items = true := by
  unfold determineMedicalCategory
  rw [h]
  simp only [Bool.false_eq_true, if_false]
  cases hd : dentalCond store items
  · simp only [Bool.false_eq_true, if_false]
    constructor
    · intro hcat
      exfalso
      cases hv : visionCond store items <;> rw [hv] at hcat <;>
        cases hdoc : doctorCond store <;> try rw [hdoc] at hcat
      all_goals
        cases hdev : deviceCond items <;> simp_all
    · intro hfalse
      exact absurd hfalse (by simp)
  · simp

/-- Witness for `determineMedicalCategory_dental` at a concrete input. -/
theorem determineMedicalCategory_dental_witness :
    pharmacyCond "happy dental" = false ∧
    (determineMedicalCategory "happy dental" [] = "Dental" ↔
      dentalCond "happy dental" [] = true) :=
  ⟨by decide, determineMedicalCategory_dental "happy dental" [] (by decide)⟩

/-- Membership in the validator's output, by case analysis over the four
checks. -/
theorem mem_validate_iff (d : ExtractedData) (e : String) :
    e ∈ validateExtractedData d ↔
      ((storeNameBad d = true ∧ e = errStore) ∨ (amountBad d = true ∧ e = errAmount) ∨
        (dateBad d = true ∧ e = errDate) ∨ (confBad d = true ∧ e = errConf)) := by
  unfold validateExtractedData
  cases h1 : storeNameBad d <;> cases h2 : amountBad d <;> cases h3 : dateBad d <;>
    cases h4 : confBad d <;> simp

/-- The store-name check condition matches the claim wording. -/
theorem storeNameBad_iff (d : ExtractedData) :
    storeNameBad d = true ↔ d.store_name = "" ∨ (trimL d.store_name.data).length < 2 := by
  simp [storeNameBad]

/-- The amount check condition matches the claim wording: missing,
non-numeric (NaN), or a non-positive value (negative infinity included). -/
theorem amountBad_iff (d : ExtractedData) :
    amountBad d = true ↔
      d.amount = "" ∨ jsParseFloat d.amount.data = .nan ∨
        jsParseFloat d.amount.data = .inf true ∨
        ∃ q, jsParseFloat d.amount.data = .val q ∧ q ≤ 0 := by
  unfold amountBad
  cases h : jsParseFloat d.amount.data with
  | nan => simp [h]
  | inf neg => cases neg <;> simp [h]
  | val q => simp [h]

/-- The date check condition matches the claim wording. -/
theorem dateBad_iff (d : ExtractedData) :
    dateBad d = true ↔ d.date = "" ∨ isValidDate d.date = false := by
  simp [dateBad]

/-- The confidence check condition matches the claim wording. -/
theorem confBad_iff (d : ExtractedData) :
    confBad d = true ↔ d.confidence_scores.overall < 0.2 := by
  simp [confBad]

/-- Modelled from the claim wording (C9): a strict `YYYY-MM-DD` string
denoting a REAL calendar date, i.e. whose day does not exceed the length of
its month. -/
def realCalendarDate (s : String) : Bool :=
  fullMatches fmtYMDstrict s.data &&
    (match s.data.splitOn '-' with
     | [ys, ms, ds] =>
       decide (1 ≤ (digitsVal ms : Int) ∧ (digitsVal ms : Int) ≤ 12 ∧
         1 ≤ (digitsVal ds : Int) ∧
         (digitsVal ds : Int) ≤ daysInMonth (digitsVal ys) (digitsVal ms))
     | _ => false)

/-- C9 (counterexample): "2025-02-30" is a strict-format string that is NOT
a real calendar date, yet `new Date` accepts it (rolling it to 2025-03-02),
so the validator emits no date error for a record carrying it — the claim's
"real calendar value" reading of the date check is false of the code. -/
theorem validator_accepts_rollover_date :
    realCalendarDate "2025-02-30" = false ∧
    isValidDate "2025-02-30" = true ∧
    validateExtractedData
      { store_name := "Cvs", amount := "5.00", date := "2025-02-30",
        line_items := [], confidence_scores := ⟨1, 1, 1, 1⟩ } = [] :=
  ⟨by decide, by decide, by with_unfolding_all decide⟩

/-- C9 (amended): the validator is a total (never-raising) pure function
returning exactly the errors warranted by the four independent checks: store
name missing or shorter than 2 characters; amount missing, non-numeric, or
not positive; date missing or failing `isValidDate` — strict `YYYY-MM-DD`
format with month 01-12 and day 01-31, where the day need NOT exist in the
month (JS `Date` rolls such days over, so e.g. "2025-02-30" passes); overall
confidence below the acceptability threshold.  Each failed check contributes
its error, each passed check contributes none, and no other error occurs. -/
theorem validateExtractedData_exact (d : ExtractedData) :
    (errStore ∈ validateExtractedData d ↔
      d.store_name = "" ∨ (trimL d.store_name.data).length < 2) ∧
    (errAmount ∈ validateExtractedData d ↔
      d.amount = "" ∨ jsParseFloat d.amount.data = .nan ∨
        jsParseFloat d.amount.data = .inf true ∨
        ∃ q, jsParseFloat d.amount.data = .val q ∧ q ≤ 0) ∧
    (errDate ∈ validateExtractedData d ↔ d.date = "" ∨ isValidDate d.date = false) ∧
    (errConf ∈ validateExtractedData d ↔ d.confidence_scores.overall < 0.2) ∧
    (∀ e ∈ validateExtractedData d,
      e = errStore ∨ e = errAmount ∨ e = errDate ∨ e = errConf) := by
  have n12 : errStore ≠ errAmount := by decide
  have n13 : errStore ≠ errDate := by decide
  have n14 : errStore ≠ errConf := by decide
  have n23 : errAmount ≠ errDate := by decide
  have n24 : errAmount ≠ errConf := by decide
  have n34 : errDate ≠ errConf := by decide
  refine ⟨?_, ?_, ?_, ?_, ?_⟩
  · rw [mem_validate_iff]
    simp [n12, n13, n14, storeNameBad_iff d]
  · rw [mem_validate_iff]
    simp [n12.symm, n23, n24, amountBad_iff d]
  · rw [mem_validate_iff]
    simp [n13.symm, n23.symm, n34, dateBad_iff d]
  · rw [mem_validate_iff]
    simp [n14.symm, n24.symm, n34.symm, confBad_iff d]
  · intro e he
    rw [mem_validate_iff] at he
    rcases he with ⟨_, h⟩ | ⟨_, h⟩ | ⟨_, h⟩ | ⟨_, h⟩ <;> simp [h]

/-- C10: the low-confidence error is emitted exactly when the overall
confidence is strictly below 0.2 (the code's resolution of the spec's open
validation-threshold question). -/
theorem lowConfidence_error_iff (d : ExtractedData) :
    errConf ∈ validateExtractedData d ↔ d.confidence_scores.overall < 0.2 := by
  have n14 : errStore ≠ errConf := by decide
  have n24 : errAmount ≠ errConf := by decide
  have n34 : errDate ≠ errConf := by decide
  rw [mem_validate_iff]
  simp [n14.symm, n24.symm, n34.symm, confBad_iff d]

/-- Modelled from the claim wording (C3): per line, the FIRST matching
pattern decides the line; when its parse is rejected the extractor skips the
remaining patterns of that line and moves on to later lines. -/
def lineDateSpecSkip (t : Today) (line : List Char) : Option String :=
  (datePatterns.findSome? fun p => (runPattern p line).map (capN 1)).bind
    fun s => parseAndFormatDate t s

/-- Scanning loop of the claim-modelled date extractor. -/
def extractDateSpecSkipGo (t : Today) : List (List Char) → Nat → Option (String × ℚ)
  | [], _ => none
  | l :: ls, i =>
    match lineDateSpecSkip t l with
    | some v => some (v, 0.8 - (i : ℚ) * 0.03)
    | none => extractDateSpecSkipGo t ls (i + 1)

/-- Claim-modelled date extractor (C3's described behavior). -/
def extractDateSpecSkip (t : Today) (lines : List (List Char)) : String × ℚ :=
  match extractDateSpecSkipGo t (lines.take 10) 0 with
  | some r => r
  | none => (todayIso t, 0.1)

/-- C3 (counterexample): on the single line "01/01/1990 2025-06-15" (current
date 2026-10-11), the slash pattern matches first but its date is out of
window; the code then tries the remaining patterns on the SAME line and
returns 2025-06-15 from the ISO pattern, while the claim's
skip-rest-of-the-line behavior would fall back to today's date. -/
theorem extractDate_tries_later_patterns_counterexample :
    extractDate ⟨2026, 10, 11⟩ ["01/01/1990 2025-06-15".data] = ("2025-06-15", 0.8) ∧
    extractDateSpecSkip ⟨2026, 10, 11⟩ ["01/01/1990 2025-06-15".data] = ("2026-10-11", 0.1) :=
  ⟨by with_unfolding_all decide, by with_unfolding_all decide⟩

/-- C3 (amended): when a pattern matches on a line but the parsed date is
rejected by the plausibility window, the extractor falls through and tries
the remaining (lower-priority) patterns on that same line; only if all
patterns of the line fail does it move to later lines. -/
theorem datePatLoop_fallthrough (t : Today) (line : List Char) (p : JsPattern)
    (ps : List JsPattern) (m : List Char × Caps)
    (hm : runPattern p line = some m)
    (hp : parseAndFormatDate t (capN 1 m) = none) :
    datePatLoop t line (p :: ps) = datePatLoop t line ps := by
  simp only [datePatLoop, hm, hp]

/-- Witness for `datePatLoop_fallthrough` at a concrete input. -/
theorem datePatLoop_fallthrough_witness :
    runPattern dateP1 "01/01/1990".data =
      some ("01/01/1990".data, [(1, "01/01/1990".data)]) ∧
    parseAndFormatDate ⟨2026, 10, 11⟩
      (capN 1 ("01/01/1990".data, [(1, "01/01/1990".data)])) = none ∧
    datePatLoop ⟨2026, 10, 11⟩ "01/01/1990".data [dateP1] =
      datePatLoop ⟨2026, 10, 11⟩ "01/01/1990".data [] :=
  ⟨by with_unfolding_all decide, by with_unfolding_all decide,
    datePatLoop_fallthrough ⟨2026, 10, 11⟩ "01/01/1990".data dateP1 []
      ("01/01/1990".data, [(1, "01/01/1990".data)])
      (by with_unfolding_all decide) (by with_unfolding_all decide)⟩

/-- C4 (counterexample): extraction is NOT a pure function of (text, overall
confidence): the date extractor reads the clock.  With the same text
"01/01/2025" and confidence 90, runs under current dates 2025-06-01 and
2024-01-01 give different results (the date 2025-01-01 is inside the first
run's plausibility window but in the second run's future, which makes the
second run fall back to its today). -/
theorem parseReceiptText_depends_on_clock :
    parseReceiptText ⟨2025, 6, 1⟩ "01/01/2025" 90 ≠
      parseReceiptText ⟨2024, 1, 1⟩ "01/01/2025" 90 := by
  with_unfolding_all decide

/-- C4 (amended): extraction is a pure function of (text, confidence, current
date): it is fully determined by those three, and every output component
except the date value and the date confidence is independent of the clock. -/
theorem parseReceiptText_clock_dependence (t1 t2 : Today) (text : String) (conf : ℚ) :
    (parseReceiptText t1 text conf).store_name = (parseReceiptText t2 text conf).store_name ∧
    (parseReceiptText t1 text conf).amount = (parseReceiptText t2 text conf).amount ∧
    (parseReceiptText t1 text conf).line_items = (parseReceiptText t2 text conf).line_items ∧
    (parseReceiptText t1 text conf).confidence_scores.store_name =
      (parseReceiptText t2 text conf).confidence_scores.store_name ∧
    (parseReceiptText t1 text conf).confidence_scores.amount =
      (parseReceiptText t2 text conf).confidence_scores.amount ∧
    (parseReceiptText t1 text conf).confidence_scores.overall =
      (parseReceiptText t2 text conf).confidence_scores.overall :=
  ⟨rfl, rfl, rfl, rfl, rfl, rfl⟩

/-- Modelled from the claim wording (C7): candidate confidences are the
scores capped at the real number 0.95 = 19/20, and the single
highest-scoring candidate is kept, ties keeping the first found. -/
def specAmountStep (best : String × ℚ) (c : AmountCand) : String × ℚ :=
  if qmin c.score (mkRat 19 20) > best.2 then (fmt2cents c.cents, qmin c.score (mkRat 19 20))
  else best

/-- Claim-modelled amount selection (C7's described behavior). -/
def specAmount (lines : List (List Char)) : String × ℚ :=
  (amountCands lines).foldl specAmountStep ("", 0)

/-- C7 (counterexample): on the lines "TOTAL AMOUNT 1.00" and
"TOTAL AMOUNT 2.00" both candidates have raw score 0.5+0.3+0.2+0.1 (about
1.1, capped when stored).  The claim's highest-score/first-tie rule keeps the
first candidate (1.00), but the code compares the second candidate's raw
score against the stored capped best and replaces it, returning 2.00. -/
theorem extractAmount_tie_counterexample :
    extractAmount ["TOTAL AMOUNT 1.00".data, "TOTAL AMOUNT 2.00".data] =
      ("2.00", d095) ∧
    specAmount ["TOTAL AMOUNT 1.00".data, "TOTAL AMOUNT 2.00".data] =
      ("1.00", mkRat 19 20) :=
  ⟨by decide, by decide⟩

/-- The two accumulation steps agree whenever the candidate's raw double
score does not exceed the double 0.95 cap literal. -/
theorem foldl_amountStep_eq (l : List AmountCand) :
    ∀ b : String × ℚ, (∀ c ∈ l, c.score ≤ d095) →
      l.foldl amountStep b = l.foldl specAmountStep b := by
  induction l with
  | nil => intro b _; rfl
  | cons c t ih =>
    intro b h
    have hc : c.score ≤ d095 := h c (by simp)
    have h95 : d095 ≤ mkRat 19 20 := by decide
    have hstep : amountStep b c = specAmountStep b c := by
      unfold amountStep specAmountStep qmin
      rw [if_pos hc, if_pos (le_trans hc h95)]
    simp only [List.foldl_cons, hstep]
    exact ih _ fun x hx => h x (by simp [hx])

/-- C7 (amended): each candidate is scored with the claimed bonuses (0.5,
+0.3 "total", +0.2 "amount", +0.15 "balance", +0.2 past 60% of the lines,
+0.1 decimal point) accumulated in IEEE-754 double arithmetic, stored capped
at the 0.95 double literal, values outside (0,10000) rejected; the code
compares a candidate's RAW double score against the stored CAPPED best, so a
later candidate whose raw score exceeds the cap (e.g. the double sum
0.5+0.3+0.15, which lies just above the 0.95 literal) replaces an earlier
equally-scored best.  Only when no candidate's raw double score exceeds the
0.95 double literal does the selection behave as the claim's
highest-score/first-tie rule. -/
theorem extractAmount_eq_spec_of_capped (lines : List (List Char))
    (h : ∀ c ∈ amountCands lines, c.score ≤ d095) :
    extractAmount lines = specAmount lines :=
  foldl_amountStep_eq (amountCands lines) ("", 0) h

/-- Witness for `extractAmount_eq_spec_of_capped` at a concrete input. -/
theorem extractAmount_eq_spec_of_capped_witness :
    (∀ c ∈ amountCands ["TOTAL 5.00".data], c.score ≤ d095) ∧
    extractAmount ["TOTAL 5.00".data] = specAmount ["TOTAL 5.00".data] :=
  ⟨by decide, extractAmount_eq_spec_of_capped ["TOTAL 5.00".data] (by decide)⟩

/-- A successful per-line date always comes through the plausibility-window
gate of `parseAndFormatDate`. -/
theorem datePatLoop_window (t : Today) (line : List Char) :
    ∀ (ps : List JsPattern) (v : String), datePatLoop t line ps = some v →
      ∃ z : Int, twoYearsAgoDay t ≤ z ∧ z ≤ todayDay t ∧ v = isoDayStr z := by
  intro ps
  induction ps with
  | nil => intro v h; simp [datePatLoop] at h
  | cons p ps ih =>
    intro v h
    cases hm : runPattern p line with
    | none =>
      simp only [datePatLoop, hm] at h
      exact ih v h
    | some m =>
      cases hp : parseAndFormatDate t (capN 1 m) with
      | none =>
        simp only [datePatLoop, hm, hp] at h
        exact ih v h
      | some v2 =>
        simp only [datePatLoop, hm, hp] at h
        injection h with h2
        subst h2
        unfold parseAndFormatDate at hp
        cases hz : parseCandidateDay (capN 1 m) with
        | none => rw [hz] at hp; simp at hp
        | some z =>
          rw [hz] at hp
          simp only [Option.some_bind] at hp
          by_cases hw : twoYearsAgoDay t ≤ z ∧ z ≤ todayDay t
          · rw [if_pos hw] at hp
            injection hp with h3
            exact ⟨z, hw.1, hw.2, h3.symm⟩
          · rw [if_neg hw] at hp
            exact absurd hp (by simp)

/-- The window property transported to `lineDate`. -/
theorem lineDate_window (t : Today) (line : List Char) (v : String)
    (h : lineDate t line = some v) :
    ∃ z : Int, twoYearsAgoDay t ≤ z ∧ z ≤ todayDay t ∧ v = isoDayStr z :=
  datePatLoop_window t line datePatterns v h

/-- Characterization of the scanning loop of the date extractor. -/
theorem extractDateGo_spec (t : Today) :
    ∀ (ls : List (List Char)) (k : Nat),
      (∃ (i : Nat) (l : List Char) (v : String), ls[i]? = some l ∧ lineDate t l = some v ∧
        (∀ (j : Nat) (lj : List Char), j < i → ls[j]? = some lj → lineDate t lj = none) ∧
        extractDateGo t ls k = some (v, 0.8 - ((k + i : Nat) : ℚ) * 0.03))
      ∨ ((∀ (i : Nat) (l : List Char), ls[i]? = some l → lineDate t l = none) ∧
        extractDateGo t ls k = none) := by
  intro ls
  induction ls with
  | nil =>
    intro k
    right
    exact ⟨fun i l h => by simp at h, rfl⟩
  | cons l ls ih =>
    intro k
    cases hd : lineDate t l with
    | some v =>
      left
      refine ⟨0, l, v, by simp, hd, fun j lj hj _ => absurd hj (by omega), ?_⟩
      simp [extractDateGo, hd]
    | none =>
      rcases ih (k + 1) with ⟨i, l2, v, hget, hld, hbefore, heq⟩ | ⟨hall, heq⟩
      · left
        refine ⟨i + 1, l2, v, by simpa using hget, hld, ?_, ?_⟩
        · intro j lj hj hgj
          cases j with
          | zero =>
            simp only [List.getElem?_cons_zero] at hgj
            injection hgj with h2
            subst h2
            exact hd
          | succ j2 =>
            exact hbefore j2 lj (by omega) (by simpa using hgj)
        · rw [show extractDateGo t (l :: ls) k = extractDateGo t ls (k + 1) from by
            simp [extractDateGo, hd]]
          rw [heq]
          norm_num
          ring_nf
      · right
        refine ⟨?_, by simp [extractDateGo, hd, heq]⟩
        intro i li hgi
        cases i with
        | zero =>
          simp only [List.getElem?_cons_zero] at hgi
          injection hgi with h2
          subst h2
          exact hd
        | succ i2 => exact hall i2 li (by simpa using hgi)

/-- C5: the date extractor scans at most the first 10 lines; an accepted
match at line index i is an in-window date with confidence exactly
0.8 − 0.03·i (earlier lines having produced nothing); if no line yields an
in-window date the result is today's date with confidence 0.1. -/
theorem extractDate_characterization (t : Today) (lines : List (List Char)) :
    extractDate t lines = extractDate t (lines.take 10) ∧
    ((∃ (i : Nat) (l : List Char) (v : String), (lines.take 10)[i]? = some l ∧
        lineDate t l = some v ∧
        (∀ (j : Nat) (lj : List Char), j < i → (lines.take 10)[j]? = some lj →
          lineDate t lj = none) ∧
        extractDate t lines = (v, 0.8 - (i : ℚ) * 0.03) ∧
        ∃ z : Int, twoYearsAgoDay t ≤ z ∧ z ≤ todayDay t ∧ v = isoDayStr z)
      ∨ ((∀ (i : Nat) (l : List Char), (lines.take 10)[i]? = some l → lineDate t l = none) ∧
        extractDate t lines = (todayIso t, 0.1))) := by
  constructor
  · unfold extractDate
    rw [List.take_take]
    norm_num
  · rcases extractDateGo_spec t (lines.take 10) 0 with ⟨i, l, v, hget, hld, hbefore, heq⟩ |
      ⟨hall, heq⟩
    · left
      refine ⟨i, l, v, hget, hld, hbefore, ?_, lineDate_window t l v hld⟩
      unfold extractDate
      rw [heq]
      norm_num
    · right
      refine ⟨hall, ?_⟩
      unfold extractDate
      rw [heq]

/-- Characterization of the scanning loop of the store-name extractor. -/
theorem extractStoreNameGo_spec :
    ∀ (ls : List (List Char)) (k : Nat),
      (∃ (i : Nat) (l cap : List Char), ls[i]? = some l ∧
        lineStoreCap (trimL l) = some cap ∧
        (∀ (j : Nat) (lj : List Char), j < i → ls[j]? = some lj →
          lineStoreCap (trimL lj) = none) ∧
        extractStoreNameGo ls k =
          some (cleanStoreName cap, 0.7 + 0.3 * ((5 : ℚ) - ((k + i : Nat) : ℚ)) / 5))
      ∨ ((∀ (i : Nat) (l : List Char), ls[i]? = some l → lineStoreCap (trimL l) = none) ∧
        extractStoreNameGo ls k = none) := by
  intro ls
  induction ls with
  | nil =>
    intro k
    right
    exact ⟨fun i l h => by simp at h, rfl⟩
  | cons l ls ih =>
    intro k
    cases hd : lineStoreCap (trimL l) with
    | some cap =>
      left
      refine ⟨0, l, cap, by simp, hd, fun j lj hj _ => absurd hj (by omega), ?_⟩
      simp [extractStoreNameGo, hd]
    | none =>
      rcases ih (k + 1) with ⟨i, l2, cap, hget, hld, hbefore, heq⟩ | ⟨hall, heq⟩
      · left
        refine ⟨i + 1, l2, cap, by simpa using hget, hld, ?_, ?_⟩
        · intro j lj hj hgj
          cases j with
          | zero =>
            simp only [List.getElem?_cons_zero] at hgj
            injection hgj with h2
            subst h2
            exact hd
          | succ j2 =>
            exact hbefore j2 lj (by omega) (by simpa using hgj)
        · rw [show extractStoreNameGo (l :: ls) k = extractStoreNameGo ls (k + 1) from by
            simp [extractStoreNameGo, hd]]
          rw [heq]
          norm_num
          ring_nf
      · right
        refine ⟨?_, by simp [extractStoreNameGo, hd, heq]⟩
        intro i li hgi
        cases i with
        | zero =>
          simp only [List.getElem?_cons_zero] at hgi
          injection hgi with h2
          subst h2
          exact hd
        | succ i2 => exact hall i2 li (by simpa using hgi)

/-- C6: the store-name extractor matches patterns only within the first 5
lines, the earliest matching line wins (patterns tried in priority order per
line through `lineStoreCap`) with confidence exactly 0.7 + 0.3·(5 − i)/5;
with no pattern match in the first 5 lines it falls back to the first line
anywhere with length strictly between 3 and 50 containing a letter, at
confidence 0.3, and otherwise returns an empty value with confidence 0. -/
theorem extractStoreName_characterization (lines : List (List Char)) :
    (∃ (i : Nat) (l cap : List Char), (lines.take 5)[i]? = some l ∧
        lineStoreCap (trimL l) = some cap ∧
        (∀ (j : Nat) (lj : List Char), j < i → (lines.take 5)[j]? = some lj →
          lineStoreCap (trimL lj) = none) ∧
        extractStoreName lines = (cleanStoreName cap, 0.7 + 0.3 * ((5 : ℚ) - (i : ℚ)) / 5))
    ∨ ((∀ (i : Nat) (l : List Char), (lines.take 5)[i]? = some l →
          lineStoreCap (trimL l) = none) ∧
        ((∃ l, lines.find? goodFallbackLine = some l ∧
            extractStoreName lines = (cleanStoreName l, 0.3)) ∨
          (lines.find? goodFallbackLine = none ∧ extractStoreName lines = ("", 0)))) := by
  rcases extractStoreNameGo_spec (lines.take 5) 0 with ⟨i, l, cap, hget, hld, hbefore, heq⟩ |
    ⟨hall, heq⟩
  · left
    refine ⟨i, l, cap, hget, hld, hbefore, ?_⟩
    unfold extractStoreName
    rw [heq]
    norm_num
  · right
    refine ⟨hall, ?_⟩
    cases hf : lines.find? goodFallbackLine with
    | some l =>
      left
      refine ⟨l, rfl, ?_⟩
      unfold extractStoreName
      rw [heq, hf]
    | none =>
      right
      refine ⟨rfl, ?_⟩
      unfold extractStoreName
      rw [heq, hf]

/-- The store-name confidence always lies in [0,1]. -/
theorem extractStoreName_conf_bounds (lines : List (List Char)) :
    0 ≤ (extractStoreName lines).2 ∧ (extractStoreName lines).2 ≤ 1 := by
  rcases extractStoreName_characterization lines with ⟨i, l, cap, hget, _, _, heq⟩ |
    ⟨_, ⟨l, _, heq⟩ | ⟨_, heq⟩⟩
  · have hi : i < (lines.take 5).length := (List.getElem?_eq_some_iff.mp hget).1
    have hi5 : i < 5 := by
      rw [List.length_take] at hi
      omega
    have hiq : (i : ℚ) ≤ 4 := by exact_mod_cast Nat.lt_succ_iff.mp (by omega)
    have hiq0 : (0 : ℚ) ≤ (i : ℚ) := by positivity
    rw [heq]
    constructor
    · have : (0.7 : ℚ) + 0.3 * ((5 : ℚ) - (i : ℚ)) / 5 = 0.7 + 0.06 * (5 - (i : ℚ)) := by ring
      simp only
      rw [this]
      linarith
    · have : (0.7 : ℚ) + 0.3 * ((5 : ℚ) - (i : ℚ)) / 5 = 0.7 + 0.06 * (5 - (i : ℚ)) := by ring
      simp only
      rw [this]
      linarith
  · rw [heq]
    norm_num
  · rw [heq]
    norm_num

/-- The date confidence always lies in [0,1]. -/
theorem extractDate_conf_bounds (t : Today) (lines : List (List Char)) :
    0 ≤ (extractDate t lines).2 ∧ (extractDate t lines).2 ≤ 1 := by
  rcases (extractDate_characterization t lines).2 with ⟨i, l, v, hget, _, _, heq, _⟩ |
    ⟨_, heq⟩
  · have hi : i < (lines.take 10).length := (List.getElem?_eq_some_iff.mp hget).1
    have hi10 : i < 10 := by
      rw [List.length_take] at hi
      omega
    have hiq : (i : ℚ) ≤ 9 := by exact_mod_cast Nat.lt_succ_iff.mp (by omega)
    have hiq0 : (0 : ℚ) ≤ (i : ℚ) := by positivity
    rw [heq]
    constructor
    · simp only
      linarith
    · simp only
      linarith
  · rw [heq]
    norm_num

/-- The amount fold keeps its confidence inside [0,1]. -/
theorem foldl_amountStep_bounds (l : List AmountCand) :
    ∀ b : String × ℚ, 0 ≤ b.2 → b.2 ≤ 1 →
      0 ≤ (l.foldl amountStep b).2 ∧ (l.foldl amountStep b).2 ≤ 1 := by
  induction l with
  | nil => intro b h0 h1; exact ⟨h0, h1⟩
  | cons c t ih =>
    intro b h0 h1
    rw [List.foldl_cons]
    have h950 : (0 : ℚ) ≤ d095 := by decide
    have h951 : d095 ≤ 1 := by decide
    by_cases hgt : c.score > b.2
    · apply ih
      · simp only [amountStep, if_pos hgt, qmin]
        split
        · linarith
        · linarith
      · simp only [amountStep, if_pos hgt, qmin]
        split
        · linarith
        · linarith
    · apply ih
      · simp only [amountStep, if_neg hgt]
        exact h0
      · simp only [amountStep, if_neg hgt]
        exact h1

/-- The amount fold returns the initial value or some candidate's formatted
cents. -/
theorem foldl_amountStep_value (l : List AmountCand) :
    ∀ b : String × ℚ, (l.foldl amountStep b).1 = b.1 ∨
      ∃ c ∈ l, (l.foldl amountStep b).1 = fmt2cents c.cents := by
  induction l with
  | nil => intro b; left; rfl
  | cons c t ih =>
    intro b
    rw [List.foldl_cons]
    rcases ih (amountStep b c) with h | ⟨c2, hc2, h⟩
    · by_cases hgt : c.score > b.2
      · right
        exact ⟨c, by simp, by rw [h]; simp [amountStep, if_pos hgt]⟩
      · left
        rw [h]
        simp [amountStep, if_neg hgt]
    · right
      exact ⟨c2, by simp [hc2], h⟩

/-- Every amount candidate's value is strictly between 0 and 10000 dollars
(0 and 1000000 cents). -/
theorem amountCands_range (lines : List (List Char)) :
    ∀ c ∈ amountCands lines, 0 < c.cents ∧ c.cents < 1000000 := by
  intro c hc
  unfold amountCands at hc
  rw [List.mem_flatMap] at hc
  obtain ⟨x, _, hx⟩ := hc
  rw [List.mem_filterMap] at hx
  obtain ⟨p, _, hp⟩ := hx
  cases hm : runPattern p x.2 with
  | none => rw [hm] at hp; simp at hp
  | some m =>
    rw [hm] at hp
    simp only [Option.some_bind] at hp
    split at hp
    · rename_i hcond
      injection hp with h2
      subst h2
      exact hcond
    · exact absurd hp (by simp)

/-- The extracted amount is empty or a formatted in-range cent value. -/
theorem extractAmount_value_range (lines : List (List Char)) :
    (extractAmount lines).1 = "" ∨
      ∃ n : Nat, (extractAmount lines).1 = fmt2cents n ∧ 0 < n ∧ n < 1000000 := by
  rcases foldl_amountStep_value (amountCands lines) ("", 0) with h | ⟨c, hc, h⟩
  · left; exact h
  · right
    exact ⟨c.cents, h, (amountCands_range lines c hc).1, (amountCands_range lines c hc).2⟩

/-- Every accepted line item carries a formatted price strictly between 0 and
1000 dollars (0 and 100000 cents). -/
theorem itemOfLine_price (line : List Char) (it : LineItem) (h : itemOfLine line = some it) :
    ∃ n : Nat, it.price = fmt2cents n ∧ 0 < n ∧ n < 100000 := by
  unfold itemOfLine at h
  split at h
  · exact absurd h (by simp)
  · obtain ⟨p, _, hp⟩ := List.exists_of_findSome?_eq_some h
    cases hm : runPattern p line with
    | none => rw [hm] at hp; simp at hp
    | some m =>
      rw [hm] at hp
      simp only [Option.some_bind] at hp
      split at hp
      · rename_i hcond
        simp only [Bool.and_eq_true, decide_eq_true_eq] at hcond
        injection hp with h2
        subst h2
        exact ⟨centsOf (capN 2 m), rfl, hcond.1.2, hcond.2⟩
      · exact absurd hp (by simp)

/-- C8: for every input triple, all emitted confidences lie in [0,1], the
amount value when present denotes a number strictly between 0 and 10000, at
most 15 line items are emitted, and every item price denotes a number
strictly between 0 and 1000. -/
theorem extraction_invariants (t : Today) (text : String) (conf : ℚ) :
    (0 ≤ (parseReceiptText t text conf).confidence_scores.store_name ∧
      (parseReceiptText t text conf).confidence_scores.store_name ≤ 1) ∧
    (0 ≤ (parseReceiptText t text conf).confidence_scores.amount ∧
      (parseReceiptText t text conf).confidence_scores.amount ≤ 1) ∧
    (0 ≤ (parseReceiptText t text conf).confidence_scores.date ∧
      (parseReceiptText t text conf).confidence_scores.date ≤ 1) ∧
    (0 ≤ (parseReceiptText t text conf).confidence_scores.overall ∧
      (parseReceiptText t text conf).confidence_scores.overall ≤ 1) ∧
    ((parseReceiptText t text conf).amount ≠ "" →
      ∃ n : Nat, (parseReceiptText t text conf).amount = fmt2cents n ∧
        0 < ((n : ℚ) / 100) ∧ ((n : ℚ) / 100) < 10000) ∧
    (parseReceiptText t text conf).line_items.length ≤ 15 ∧
    (∀ it ∈ (parseReceiptText t text conf).line_items,
      ∃ n : Nat, it.price = fmt2cents n ∧ 0 < ((n : ℚ) / 100) ∧ ((n : ℚ) / 100) < 1000) := by
  refine ⟨?_, ?_, ?_, ?_, ?_, ?_, ?_⟩
  · rw [show (parseReceiptText t text conf).confidence_scores.store_name =
        (if (extractStoreName (toLines text.data)).1 = "" then 0
         else (extractStoreName (toLines text.data)).2) from rfl]
    split
    · norm_num
    · exact extractStoreName_conf_bounds (toLines text.data)
  · rw [show (parseReceiptText t text conf).confidence_scores.amount =
        (if (extractAmount (toLines text.data)).1 = "" then 0
         else (extractAmount (toLines text.data)).2) from rfl]
    split
    · norm_num
    · exact foldl_amountStep_bounds (amountCands (toLines text.data)) ("", 0)
        (by norm_num) (by norm_num)
  · rw [show (parseReceiptText t text conf).confidence_scores.date =
        (if (extractDate t (toLines text.data)).1 = "" then 0
         else (extractDate t (toLines text.data)).2) from rfl]
    split
    · norm_num
    · exact extractDate_conf_bounds t (toLines text.data)
  · rw [show (parseReceiptText t text conf).confidence_scores.overall =
        qmax 0 (qmin 1 (conf / 100)) from rfl]
    unfold qmax qmin
    constructor
    · split <;> split <;> linarith
    · split <;> split <;> linarith
  · rw [show (parseReceiptText t text conf).amount =
        (if (extractAmount (toLines text.data)).1 = "" then ""
         else (extractAmount (toLines text.data)).1) from rfl]
    split
    · intro h; exact absurd rfl h
    · intro _
      rcases extractAmount_value_range (toLines text.data) with h | ⟨n, hn, h0, h1⟩
      · rename_i hne
        exact absurd h hne
      · refine ⟨n, hn, ?_, ?_⟩
        · have : (0 : ℚ) < (n : ℚ) := by exact_mod_cast h0
          linarith
        · have : (n : ℚ) < 1000000 := by exact_mod_cast h1
          linarith
  · rw [show (parseReceiptText t text conf).line_items =
        extractLineItems (toLines text.data) from rfl]
    unfold extractLineItems
    exact List.length_take_le 15 _
  · rw [show (parseReceiptText t text conf).line_items =
        extractLineItems (toLines text.data) from rfl]
    intro it hit
    unfold extractLineItems at hit
    have hit2 := List.mem_of_mem_take hit
    rw [List.mem_filterMap] at hit2
    obtain ⟨line, _, hline⟩ := hit2
    obtain ⟨n, hn, h0, h1⟩ := itemOfLine_price line it hline
    refine ⟨n, hn, ?_, ?_⟩
    · have : (0 : ℚ) < (n : ℚ) := by exact_mod_cast h0
      linarith
    · have : (n : ℚ) < 100000 := by exact_mod_cast h1
      linarith
